import Mathlib

/-!
Verification of the Spirit forum category-administration module and the
comment-flag URL route.

The repository fragment ships the admin test suite
(`spirit/category/admin/tests.py`) and the flag route
(`spirit/comment/flag/urls.py`).  The category model, the `CategoryForm`
validator and the admin views are exercised by those tests but their code
is not part of the fragment, so they are modelled here from the
specification (sections 3, 4.1, 4.2, 6 and 7), with the test suite fixing
every point the prose leaves ambiguous.  The flag route's regex is
embedded directly from `urls.py`.
-/

namespace Spirit

/-- A category row: fields per spec section 3 (`title`, `description`,
`color`, `is_closed`, `is_removed`, `is_global`, `is_private`, nullable
`parent` reference, integer `sort`, timestamp `reindex_at`).  Timestamps
are naturals. -/
structure Category where
  id : Nat
  title : String
  description : String
  color : String
  is_closed : Bool
  is_removed : Bool
  is_global : Bool
  is_private : Bool
  parent : Option Nat
  sort : Nat
  reindex_at : Nat
deriving DecidableEq, Repr

/-- The category store: the relational table of category rows. -/
abbrev Store := List Category

/-- Look a category up by primary key (first row with that id). -/
def getById : Store → Nat → Option Category
  | [], _ => none
  | c :: cs, i => if c.id = i then some c else getById cs i

/-- Whether any stored category has `i` as its parent. -/
def hasChildren (st : Store) (i : Nat) : Bool :=
  st.any (fun c => c.parent == some i)

/-- The `sort` value of the category with id `i`, when present. -/
def sortOf (st : Store) (i : Nat) : Option Nat :=
  (getById st i).map (fun c => c.sort)

/-- Raw form input for `CategoryForm`: the submitted `parent` id (empty
submission is `none`) and the other editable fields. -/
structure FormData where
  parent : Option Nat
  title : String
  description : String
  is_closed : Bool
  is_removed : Bool
  is_global : Bool
  color : String
deriving DecidableEq, Repr

/-- A hexadecimal digit, upper or lower case. -/
def isHexDigit (c : Char) : Bool :=
  c.isDigit || ('a' ≤ c && c ≤ 'f') || ('A' ≤ c && c ≤ 'F')

/-- Modelled from the spec (`forms.py` is absent from the fragment):
"Accepts empty color or a valid 6-hex-digit color string prefixed with
`#`; rejects anything else." -/
def cleanColor (s : String) : Bool :=
  match s.data with
  | [] => true
  | c :: rest => c == '#' && rest.length == 6 && rest.all isHexDigit

/-- Modelled from the spec: `title` is a required field of the form
(spec section 3 data model); an empty submission fails validation. -/
def cleanTitle (t : String) : Option String :=
  if t.data = [] then none else some t

/-- Whether the instance being edited (if any) already has subcategories. -/
def instHasChildren (st : Store) (inst : Option Category) : Bool :=
  match inst with
  | none => false
  | some i => hasChildren st i.id

/-- Modelled from the spec (`forms.py` is absent from the fragment):
the `clean_parent` validator.  Spec section 3: a category "cannot have a
removed category as parent, cannot have a private category as parent, and
cannot be assigned as a child if it already has children"; a parent "must
itself have `parent = null`".  Per the test suite (`tests.py` lines
151-156) the children guard is on the category being edited, which fires
only when editing an existing instance.  Returns `some cleanedValue` on
success and `none` on a field validation error (a nonexistent parent id
is likewise a choice-field error). -/
def cleanParent (st : Store) (inst : Option Category) (p : Option Nat) :
    Option (Option Nat) :=
  match p with
  | none => some none
  | some pid =>
    match getById st pid with
    | none => none
    | some pc =>
      if instHasChildren st inst then none
      else if pc.parent ≠ none then none
      else if pc.is_removed then none
      else if pc.is_private then none
      else some (some pid)

/-- The validated result of a form: per field, `some value` when the
field's validator accepted it, `none` when it was rejected (a rejected
field is excluded from the cleaned data, spec section 7). -/
structure CleanedData where
  parent : Option (Option Nat)
  title : Option String
  description : Option String
  is_closed : Option Bool
  is_removed : Option Bool
  is_global : Option Bool
  color : Option String
deriving DecidableEq, Repr

/-- Modelled from the spec: run every field validator of `CategoryForm`
over the raw input, producing the cleaned data. -/
def cleanForm (st : Store) (inst : Option Category) (d : FormData) :
    CleanedData where
  parent := cleanParent st inst d.parent
  title := cleanTitle d.title
  description := some d.description
  is_closed := some d.is_closed
  is_removed := some d.is_removed
  is_global := some d.is_global
  color := if cleanColor d.color then some d.color else none

/-- Modelled from the spec: the form is valid when every field validator
accepted its input. -/
def formIsValid (st : Store) (inst : Option Category) (d : FormData) : Bool :=
  (cleanForm st inst d).parent.isSome &&
  (cleanForm st inst d).title.isSome &&
  (cleanForm st inst d).description.isSome &&
  (cleanForm st inst d).is_closed.isSome &&
  (cleanForm st inst d).is_removed.isSome &&
  (cleanForm st inst d).is_global.isSome &&
  (cleanForm st inst d).color.isSome

/-- Modelled from the spec: the initial `sort` for a fresh category is
"greater than any existing sibling's `sort`" — computed as the maximum
over the siblings (rows sharing the new row's parent) plus one. -/
def nextSort (st : Store) (parent : Option Nat) : Nat :=
  ((st.filter (fun c => c.parent == parent)).map (fun c => c.sort)).foldr
    max 0 + 1

/-- Modelled from the spec: saving a valid form with no bound instance
inserts a fresh row; `sort` is assigned by `nextSort` and `reindex_at`
is stamped with the current time.  Returns the created row and the new
store. -/
def saveNew (st : Store) (d : FormData) (newId now : Nat) :
    Category × Store :=
  let c : Category :=
    { id := newId, title := d.title, description := d.description,
      color := d.color, is_closed := d.is_closed,
      is_removed := d.is_removed, is_global := d.is_global,
      is_private := false, parent := d.parent,
      sort := nextSort st d.parent, reindex_at := now }
  (c, st ++ [c])

/-- Modelled from the spec: saving a valid form bound to an existing
instance overwrites the editable fields and "sets `reindex_at` to a
fresh timestamp" (the current time).  Returns the updated row and the
new store. -/
def saveExisting (st : Store) (c : Category) (d : FormData) (now : Nat) :
    Category × Store :=
  let c2 : Category :=
    { c with title := d.title, description := d.description,
             color := d.color, is_closed := d.is_closed,
             is_removed := d.is_removed, is_global := d.is_global,
             parent := d.parent, reindex_at := now }
  (c2, st.map (fun x => if x.id = c.id then c2 else x))

/-- Sibling order by `sort` ascending. -/
def bySort (a b : Category) : Prop := a.sort ≤ b.sort

/-- Sibling order by `title` ascending. -/
def byTitle (a b : Category) : Prop := a.title ≤ b.title

instance : DecidableRel bySort := fun a b =>
  inferInstanceAs (Decidable (a.sort ≤ b.sort))

instance : DecidableRel byTitle := fun a b =>
  inferInstanceAs (Decidable (a.title ≤ b.title))

instance : IsTotal Category bySort :=
  ⟨fun a b => Nat.le_total a.sort b.sort⟩

instance : IsTrans Category bySort :=
  ⟨fun _ _ _ hab hbc => Nat.le_trans hab hbc⟩

instance : IsTotal Category byTitle :=
  ⟨fun a b => le_total a.title b.title⟩

instance : IsTrans Category byTitle :=
  ⟨fun _ _ _ hab hbc => le_trans hab hbc⟩

/-- The root-level, non-private categories: what the admin index and the
parent-choice listings range over (spec section 4.2). -/
def rootPublic (st : Store) : List Category :=
  st.filter (fun c => !c.is_private && c.parent == none)

/-- Modelled from the spec: the category listing — root-level non-private
rows, ordered by `sort` ascending when `ST_ORDERED_CATEGORIES` is
enabled and by title ascending otherwise (spec sections 4.2 and 6). -/
def listCategories (ordered : Bool) (st : Store) : List Category :=
  if ordered then List.insertionSort bySort (rootPublic st)
  else List.insertionSort byTitle (rootPublic st)

/-- The acting user, as the admin views see it. -/
structure User where
  is_administrator : Bool
deriving DecidableEq, Repr

/-- Failures an admin view can signal before producing a response. -/
inductive AdminError where
  | permissionDenied
deriving DecidableEq, Repr

/-- Successful responses of the admin form views. -/
inductive Response where
  | redirectIndex
  | renderForm
  | notFound
deriving DecidableEq, Repr

/-- The element of the store with the smallest `sort` (first on ties). -/
def minBySort : List Category → Option Category
  | [] => none
  | c :: cs =>
    match minBySort cs with
    | none => some c
    | some b => if c.sort < b.sort then some c else some b

/-- The element of the store with the largest `sort` (first on ties). -/
def maxBySort : List Category → Option Category
  | [] => none
  | c :: cs =>
    match maxBySort cs with
    | none => some c
    | some b => if b.sort < c.sort then some c else some b

/-- Modelled from the spec: the next root-level sibling of `c` — the row
with the least `sort` among root rows whose `sort` exceeds `c`'s. -/
def nextSibling (st : Store) (c : Category) : Option Category :=
  minBySort (st.filter (fun x => x.parent == none && decide (c.sort < x.sort)))

/-- Modelled from the spec: the previous root-level sibling of `c` — the
row with the greatest `sort` among root rows whose `sort` is below
`c`'s. -/
def prevSibling (st : Store) (c : Category) : Option Category :=
  maxBySort (st.filter (fun x => x.parent == none && decide (x.sort < c.sort)))

/-- Swap the `sort` values of rows `a` and `b` in the store. -/
def swapSorts (st : Store) (a b : Category) : Store :=
  st.map (fun x =>
    if x.id = a.id then { x with sort := b.sort }
    else if x.id = b.id then { x with sort := a.sort }
    else x)

/-- Modelled from the spec: `move_dn` swaps the row's `sort` with its
next sibling's; a no-op at the end of the list or on an unknown or
non-root id (spec section 4.2). -/
def moveDn (st : Store) (cid : Nat) : Store :=
  match getById st cid with
  | none => st
  | some c =>
    if c.parent = none then
      match nextSibling st c with
      | none => st
      | some b => swapSorts st c b
    else st

/-- Modelled from the spec: `move_up` swaps the row's `sort` with its
previous sibling's; a no-op at the start of the list or on an unknown or
non-root id. -/
def moveUp (st : Store) (cid : Nat) : Store :=
  match getById st cid with
  | none => st
  | some c =>
    if c.parent = none then
      match prevSibling st c with
      | none => st
      | some b => swapSorts st c b
    else st

/-- Modelled from the spec: the admin `index` view.  Permission is
checked before anything else; an administrator gets the category
listing and the store is never mutated. -/
def indexView (u : User) (ordered : Bool) (st : Store) :
    Except AdminError (List Category) × Store :=
  if u.is_administrator then (Except.ok (listCategories ordered st), st)
  else (Except.error AdminError.permissionDenied, st)

/-- Modelled from the spec: the admin `create` view.  Permission first;
then a valid form is saved (insert) and redirects to index, an invalid
form re-renders with no store change. -/
def createView (u : User) (st : Store) (d : FormData) (newId now : Nat) :
    Except AdminError Response × Store :=
  if u.is_administrator then
    if formIsValid st none d then
      (Except.ok Response.redirectIndex, (saveNew st d newId now).2)
    else (Except.ok Response.renderForm, st)
  else (Except.error AdminError.permissionDenied, st)

/-- Modelled from the spec: the admin `update` view.  Permission first;
then the instance is looked up, a valid form is saved (overwrite) and
redirects to index, an invalid form re-renders with no store change. -/
def updateView (u : User) (st : Store) (cid : Nat) (d : FormData)
    (now : Nat) : Except AdminError Response × Store :=
  if u.is_administrator then
    match getById st cid with
    | none => (Except.ok Response.notFound, st)
    | some c =>
      if formIsValid st (some c) d then
        (Except.ok Response.redirectIndex, (saveExisting st c d now).2)
      else (Except.ok Response.renderForm, st)
  else (Except.error AdminError.permissionDenied, st)

/-- Modelled from the spec: the admin `move_up` view.  Permission first,
then the swap, then a redirect to index. -/
def moveUpView (u : User) (st : Store) (cid : Nat) :
    Except AdminError Response × Store :=
  if u.is_administrator then (Except.ok Response.redirectIndex, moveUp st cid)
  else (Except.error AdminError.permissionDenied, st)

/-- Modelled from the spec: the admin `move_dn` view.  Permission first,
then the swap, then a redirect to index. -/
def moveDnView (u : User) (st : Store) (cid : Nat) :
    Except AdminError Response × Store :=
  if u.is_administrator then (Except.ok Response.redirectIndex, moveDn st cid)
  else (Except.error AdminError.permissionDenied, st)

/-- The comment-flag route from `spirit/comment/flag/urls.py`: the
pattern `[0-9]+/create/` anchored at both ends, compiled to a direct
matcher.  `[0-9]+` is greedy and `/` is not a digit, so the regex
matches exactly when the maximal leading digit run is nonempty and the
remainder is the literal `/create/`. -/
def matchFlagCreate (s : String) : Bool :=
  let cs := s.data
  decide (cs.takeWhile Char.isDigit ≠ []) &&
  decide (cs.dropWhile Char.isDigit = ("/create/").data)

/-! ### Helper lemmas -/

theorem getById_mem {st : Store} {i : Nat} {c : Category}
    (h : getById st i = some c) : c ∈ st ∧ c.id = i := by
  induction st with
  | nil => cases h
  | cons a as ih =>
    rw [getById] at h
    by_cases ha : a.id = i
    · rw [if_pos ha] at h
      injection h with h
      subst h
      exact ⟨List.mem_cons_self _ _, ha⟩
    · rw [if_neg ha] at h
      rcases ih h with ⟨h1, h2⟩
      exact ⟨List.mem_cons_of_mem _ h1, h2⟩

theorem getById_of_mem {st : Store} {a : Category}
    (hmem : a ∈ st) (hn : (st.map (fun c => c.id)).Nodup) :
    getById st a.id = some a := by
  induction st with
  | nil => cases hmem
  | cons c cs ih =>
    rw [List.map_cons, List.nodup_cons] at hn
    rw [getById]
    rcases List.mem_cons.mp hmem with h | h
    · subst h
      rw [if_pos rfl]
    · by_cases hc : c.id = a.id
      · exact absurd (by rw [hc]; exact List.mem_map_of_mem _ h) hn.1
      · rw [if_neg hc]
        exact ih h hn.2

theorem eq_of_mem_id {st : Store} {a b : Category}
    (ha : a ∈ st) (hb : b ∈ st)
    (hn : (st.map (fun c => c.id)).Nodup) (hid : a.id = b.id) : a = b := by
  have h1 := getById_of_mem ha hn
  have h2 := getById_of_mem hb hn
  rw [hid, h2] at h1
  injection h1 with h1
  exact h1.symm

theorem getById_map {st : Store} (f : Category → Category)
    (hf : ∀ x, (f x).id = x.id) (i : Nat) :
    getById (st.map f) i = (getById st i).map f := by
  induction st with
  | nil => rfl
  | cons c cs ih =>
    rw [List.map_cons, getById, getById, hf c]
    by_cases hc : c.id = i
    · rw [if_pos hc, if_pos hc]
      rfl
    · rw [if_neg hc, if_neg hc]
      exact ih

/-- The color validator accepts exactly the empty string and a `#`
followed by six hexadecimal digits. -/
theorem cleanColor_iff (s : String) :
    cleanColor s = true ↔
      (s.data = [] ∨ ∃ t : List Char, s.data = '#' :: t ∧
        t.length = 6 ∧ ∀ c ∈ t, isHexDigit c = true) := by
  unfold cleanColor
  cases hs : s.data with
  | nil => simp
  | cons c rest =>
    simp only [Bool.and_eq_true, beq_iff_eq, List.all_eq_true,
      List.cons_ne_nil, false_or]
    constructor
    · rintro ⟨⟨hc, hlen⟩, hall⟩
      exact ⟨rest, by rw [hc], by exact_mod_cast hlen, hall⟩
    · rintro ⟨t, ht, hlen, hall⟩
      injection ht with h1 h2
      subst h1
      subst h2
      exact ⟨⟨rfl, by exact_mod_cast hlen⟩, hall⟩

/-- A maximal run of digits followed by a non-digit-initial suffix is
split off exactly by `takeWhile`/`dropWhile`. -/
theorem digits_split (d : List Char)
    (hd : ∀ c ∈ d, c.isDigit = true) :
    (d ++ ("/create/").data).takeWhile Char.isDigit = d ∧
    (d ++ ("/create/").data).dropWhile Char.isDigit = ("/create/").data := by
  induction d with
  | nil => exact ⟨rfl, rfl⟩
  | cons c cs ih =>
    have hc : c.isDigit = true := hd c (List.mem_cons_self _ _)
    have ihr := ih (fun x hx => hd x (List.mem_cons_of_mem _ hx))
    constructor
    · rw [List.cons_append, List.takeWhile_cons, hc, if_pos rfl, ihr.1]
    · rw [List.cons_append, List.dropWhile_cons, hc, if_pos rfl, ihr.2]

/-- C10: the comment-flag route matches a path exactly when it is one or
more decimal digits followed by `/create/`; a path whose comment_id
segment contains any non-digit character never matches. -/
theorem flag_route_matches_iff (s : String) :
    matchFlagCreate s = true ↔
      ∃ d : List Char, s.data = d ++ ("/create/").data ∧ d ≠ [] ∧
        ∀ c ∈ d, c.isDigit = true := by
  unfold matchFlagCreate
  simp only [Bool.and_eq_true, decide_eq_true_eq]
  constructor
  · rintro ⟨hne, hdrop⟩
    refine ⟨s.data.takeWhile Char.isDigit, ?_, hne, ?_⟩
    · rw [← hdrop, List.takeWhile_append_dropWhile]
    · intro c hc
      exact List.mem_takeWhile_imp hc
  · rintro ⟨d, hsplit, hne, hdig⟩
    rw [hsplit, (digits_split d hdig).1, (digits_split d hdig).2]
    exact ⟨hne, rfl⟩

/-- C5: the category form's color field is accepted exactly when it is
empty or `#` followed by six hexadecimal digits; a form whose color is
`#QWERTZ` is invalid and the color is dropped from the cleaned data,
while `#ff0000` and the empty string pass the color validator. -/
theorem color_field_spec (s : String) (st : Store) (inst : Option Category)
    (d : FormData) (h : d.color = "#QWERTZ") :
    formIsValid st inst d = false ∧
    (cleanForm st inst d).color = none ∧
    (cleanColor s = true ↔
      (s.data = [] ∨ ∃ t : List Char, s.data = '#' :: t ∧
        t.length = 6 ∧ ∀ c ∈ t, isHexDigit c = true)) ∧
    cleanColor "#ff0000" = true ∧ cleanColor "" = true := by
  have hq : cleanColor d.color = false := by rw [h]; decide
  refine ⟨?_, ?_, cleanColor_iff s, by decide, by decide⟩
  · simp [formIsValid, cleanForm, hq]
  · simp [cleanForm, hq]

/-- Witness for C5 at a concrete invalid-color form. -/
theorem color_field_spec_witness :
    (FormData.mk none "foo" "" false false true "#QWERTZ").color = "#QWERTZ" ∧
    (formIsValid [] none (FormData.mk none "foo" "" false false true "#QWERTZ") = false ∧
     (cleanForm [] none (FormData.mk none "foo" "" false false true "#QWERTZ")).color = none ∧
     (cleanColor "#ff0000" = true ↔
       (("#ff0000").data = [] ∨ ∃ t : List Char, ("#ff0000").data = '#' :: t ∧
         t.length = 6 ∧ ∀ c ∈ t, isHexDigit c = true)) ∧
     cleanColor "#ff0000" = true ∧ cleanColor "" = true) :=
  ⟨rfl, color_field_spec "#ff0000" [] none _ rfl⟩

/-- C2: for a user who is not an administrator, each of index, create,
update, move_up and move_dn fails with a permission error and returns
the store unchanged — no category is created, modified or reordered. -/
theorem non_admin_all_actions_denied (u : User) (st : Store)
    (ordered : Bool) (d : FormData) (cid newId now : Nat)
    (h : u.is_administrator = false) :
    indexView u ordered st = (Except.error AdminError.permissionDenied, st) ∧
    createView u st d newId now =
      (Except.error AdminError.permissionDenied, st) ∧
    updateView u st cid d now =
      (Except.error AdminError.permissionDenied, st) ∧
    moveUpView u st cid = (Except.error AdminError.permissionDenied, st) ∧
    moveDnView u st cid = (Except.error AdminError.permissionDenied, st) := by
  refine ⟨?_, ?_, ?_, ?_, ?_⟩ <;>
    simp [indexView, createView, updateView, moveUpView, moveDnView, h]

/-- Witness for C2 at a concrete non-administrator and store. -/
theorem non_admin_all_actions_denied_witness :
    (User.mk false).is_administrator = false ∧
    (indexView (User.mk false) true
        [Category.mk 1 "a" "" "" false false true false none 1 0] =
      (Except.error AdminError.permissionDenied,
        [Category.mk 1 "a" "" "" false false true false none 1 0]) ∧
     createView (User.mk false)
        [Category.mk 1 "a" "" "" false false true false none 1 0]
        (FormData.mk none "foo" "" false false true "") 2 5 =
      (Except.error AdminError.permissionDenied,
        [Category.mk 1 "a" "" "" false false true false none 1 0]) ∧
     updateView (User.mk false)
        [Category.mk 1 "a" "" "" false false true false none 1 0]
        1 (FormData.mk none "foo" "" false false true "") 5 =
      (Except.error AdminError.permissionDenied,
        [Category.mk 1 "a" "" "" false false true false none 1 0]) ∧
     moveUpView (User.mk false)
        [Category.mk 1 "a" "" "" false false true false none 1 0] 1 =
      (Except.error AdminError.permissionDenied,
        [Category.mk 1 "a" "" "" false false true false none 1 0]) ∧
     moveDnView (User.mk false)
        [Category.mk 1 "a" "" "" false false true false none 1 0] 1 =
      (Except.error AdminError.permissionDenied,
        [Category.mk 1 "a" "" "" false false true false none 1 0])) :=
  ⟨rfl, non_admin_all_actions_denied (User.mk false)
    [Category.mk 1 "a" "" "" false false true false none 1 0]
    true (FormData.mk none "foo" "" false false true "") 1 2 5 rfl⟩

/-- C3: a successful validated update of an existing category stamps
`reindex_at` strictly past its prior value, both on the saved row and in
the resulting store. -/
theorem update_advances_reindex_at (st : Store) (c : Category)
    (d : FormData) (now : Nat)
    (hmem : c ∈ st) (hn : (st.map (fun x => x.id)).Nodup)
    (hv : formIsValid st (some c) d = true)
    (hnow : c.reindex_at < now) :
    c.reindex_at < (saveExisting st c d now).1.reindex_at ∧
    getById (saveExisting st c d now).2 c.id =
      some (saveExisting st c d now).1 := by
  constructor
  · simpa [saveExisting] using hnow
  · show getById (st.map fun x => if x.id = c.id then _ else x) c.id = _
    rw [getById_map _ (fun x => by by_cases hx : x.id = c.id <;> simp [hx]),
      getById_of_mem hmem hn]
    simp [saveExisting]

/-- Witness for C3 at a concrete store, category and clock. -/
theorem update_advances_reindex_at_witness :
    (Category.mk 1 "a" "" "" false false true false none 1 3 ∈
      ([Category.mk 1 "a" "" "" false false true false none 1 3] : Store)) ∧
    (([Category.mk 1 "a" "" "" false false true false none 1 3] :
        Store).map (fun x => x.id)).Nodup ∧
    formIsValid [Category.mk 1 "a" "" "" false false true false none 1 3]
      (some (Category.mk 1 "a" "" "" false false true false none 1 3))
      (FormData.mk none "foo" "" false false true "") = true ∧
    (Category.mk 1 "a" "" "" false false true false none 1 3).reindex_at
      < 7 ∧
    ((Category.mk 1 "a" "" "" false false true false none 1 3).reindex_at <
      (saveExisting [Category.mk 1 "a" "" "" false false true false none 1 3]
        (Category.mk 1 "a" "" "" false false true false none 1 3)
        (FormData.mk none "foo" "" false false true "") 7).1.reindex_at ∧
     getById (saveExisting
        [Category.mk 1 "a" "" "" false false true false none 1 3]
        (Category.mk 1 "a" "" "" false false true false none 1 3)
        (FormData.mk none "foo" "" false false true "") 7).2 1 =
      some (saveExisting
        [Category.mk 1 "a" "" "" false false true false none 1 3]
        (Category.mk 1 "a" "" "" false false true false none 1 3)
        (FormData.mk none "foo" "" false false true "") 7).1) :=
  ⟨by decide, by decide, by decide, by decide,
    update_advances_reindex_at _ _ _ 7 (by decide) (by decide) (by decide)
      (by decide)⟩

/-- Any member of a list of naturals is bounded by the fold of `max`. -/
theorem le_foldr_max {l : List Nat} {x : Nat} (hx : x ∈ l) :
    x ≤ l.foldr max 0 := by
  induction l with
  | nil => cases hx
  | cons a as ih =>
    rcases List.mem_cons.mp hx with h | h
    · subst h
      exact Nat.le_max_left _ _
    · exact Nat.le_trans (ih h) (Nat.le_max_right _ _)

/-- C6: a successful validated save of a new category assigns a `sort`
value strictly greater than zero and strictly greater than the `sort`
of every existing sibling. -/
theorem create_assigns_greatest_sort (st : Store) (d : FormData)
    (newId now : Nat) (hv : formIsValid st none d = true) :
    0 < (saveNew st d newId now).1.sort ∧
    ∀ s ∈ st, s.parent = d.parent →
      s.sort < (saveNew st d newId now).1.sort := by
  constructor
  · show 0 < nextSort st d.parent
    exact Nat.succ_pos _
  · intro s hs hpar
    show s.sort < nextSort st d.parent
    have hmem : s.sort ∈
        ((st.filter (fun c => c.parent == d.parent)).map
          (fun c => c.sort)) :=
      List.mem_map_of_mem _ (List.mem_filter.mpr ⟨hs, by simp [hpar]⟩)
    exact Nat.lt_succ_of_le (le_foldr_max hmem)

/-- Witness for C6: the test-suite create (valid data, empty color) on a
store with one root category. -/
theorem create_assigns_greatest_sort_witness :
    formIsValid [Category.mk 1 "a" "" "" false false true false none 4 0]
      none (FormData.mk none "foo" "" false false true "") = true ∧
    (0 < (saveNew [Category.mk 1 "a" "" "" false false true false none 4 0]
        (FormData.mk none "foo" "" false false true "") 2 5).1.sort ∧
     ∀ s ∈ ([Category.mk 1 "a" "" "" false false true false none 4 0] :
        Store), s.parent = (FormData.mk none "foo" "" false false true
          "").parent →
       s.sort < (saveNew
          [Category.mk 1 "a" "" "" false false true false none 4 0]
          (FormData.mk none "foo" "" false false true "") 2 5).1.sort) :=
  ⟨by decide, create_assigns_greatest_sort _ _ 2 5 (by decide)⟩

/-- C1 fails on the modelled code: the children guard is on the category
being edited, not on the proposed parent.  Concretely, category 1 is an
existing category with no children, the proposed parent 2 is root-level,
not removed, not private, and has a child (category 3); the claim
demands rejection, yet the form validates. -/
theorem invalid_parent_counterexample :
    hasChildren
      [Category.mk 1 "c" "" "" false false true false none 1 0,
       Category.mk 2 "p" "" "" false false true false none 2 0,
       Category.mk 3 "k" "" "" false false true false (some 2) 1 0] 2 =
      true ∧
    hasChildren
      [Category.mk 1 "c" "" "" false false true false none 1 0,
       Category.mk 2 "p" "" "" false false true false none 2 0,
       Category.mk 3 "k" "" "" false false true false (some 2) 1 0] 1 =
      false ∧
    formIsValid
      [Category.mk 1 "c" "" "" false false true false none 1 0,
       Category.mk 2 "p" "" "" false false true false none 2 0,
       Category.mk 3 "k" "" "" false false true false (some 2) 1 0]
      (some (Category.mk 1 "c" "" "" false false true false none 1 0))
      (FormData.mk (some 2) "foo" "" false false true "") = true := by
  refine ⟨by decide, by decide, by decide⟩

/-- C1 (amended): validating a form that assigns C's parent fails
whenever the proposed parent itself has a non-null parent, or is
removed, or is private, or — when C is an existing category — C itself
already has children; in each of these cases the parent field is
rejected and the form is invalid. -/
theorem invalid_parent_rejected (st : Store) (inst : Option Category)
    (d : FormData) (pid : Nat) (pc : Category)
    (hd : d.parent = some pid) (hg : getById st pid = some pc)
    (h : pc.parent ≠ none ∨ pc.is_removed = true ∨ pc.is_private = true ∨
         (∃ i, inst = some i ∧ hasChildren st i.id = true)) :
    cleanParent st inst d.parent = none ∧
    formIsValid st inst d = false := by
  have hp : cleanParent st inst d.parent = none := by
    rw [hd]
    simp only [cleanParent, hg]
    split_ifs with h1 h2 h3 h4
    · rfl
    · rfl
    · rfl
    · rfl
    · exfalso
      rcases h with hpp | hr | hpr | ⟨i, hi, hci⟩
      · exact h2 hpp
      · exact h3 hr
      · exact h4 hpr
      · subst hi
        rw [instHasChildren] at h1
        exact h1 hci
  refine ⟨hp, ?_⟩
  simp [formIsValid, cleanForm, hp]

/-- Witness for C1 (amended): a removed proposed parent is rejected. -/
theorem invalid_parent_rejected_witness :
    (FormData.mk (some 2) "foo" "" false false true "").parent = some 2 ∧
    getById [Category.mk 2 "p" "" "" false true true false none 1 0] 2 =
      some (Category.mk 2 "p" "" "" false true true false none 1 0) ∧
    ((Category.mk 2 "p" "" "" false true true false none 1 0).parent ≠
        none ∨
      (Category.mk 2 "p" "" "" false true true false none 1 0).is_removed =
        true ∨
      (Category.mk 2 "p" "" "" false true true false none 1 0).is_private =
        true ∨
      ∃ i, (none : Option Category) = some i ∧
        hasChildren [Category.mk 2 "p" "" "" false true true false none 1 0]
          i.id = true) ∧
    (cleanParent [Category.mk 2 "p" "" "" false true true false none 1 0]
        none (FormData.mk (some 2) "foo" "" false false true "").parent =
      none ∧
     formIsValid [Category.mk 2 "p" "" "" false true true false none 1 0]
        none (FormData.mk (some 2) "foo" "" false false true "") = false) :=
  ⟨rfl, by decide, Or.inr (Or.inl rfl),
    invalid_parent_rejected
      [Category.mk 2 "p" "" "" false true true false none 1 0] none
      (FormData.mk (some 2) "foo" "" false false true "") 2
      (Category.mk 2 "p" "" "" false true true false none 1 0) rfl
      (by decide) (Or.inr (Or.inl rfl))⟩

/-- C9: when a field fails validation — the model's failable fields are
color, parent and title, every other field always cleans — the
offending field is excluded from the cleaned data, the form is invalid,
and no partial persistence occurs: the create and update views leave
the store unchanged on a failed validation. -/
theorem invalid_field_excluded_no_persist (st : Store)
    (inst : Option Category) (d : FormData) (u : User) (c : Category)
    (cid newId now : Nat)
    (h : cleanColor d.color = false ∨
      cleanParent st inst d.parent = none ∨
      cleanTitle d.title = none) :
    formIsValid st inst d = false ∧
    (cleanColor d.color = false → (cleanForm st inst d).color = none) ∧
    (cleanParent st inst d.parent = none →
      (cleanForm st inst d).parent = none) ∧
    (cleanTitle d.title = none → (cleanForm st inst d).title = none) ∧
    (formIsValid st none d = false → (createView u st d newId now).2 = st) ∧
    (getById st cid = some c → formIsValid st (some c) d = false →
      (updateView u st cid d now).2 = st) := by
  refine ⟨?_, ?_, ?_, ?_, ?_, ?_⟩
  · rcases h with hc | hp | ht
    · simp [formIsValid, cleanForm, hc]
    · simp [formIsValid, cleanForm, hp]
    · simp [formIsValid, cleanForm, ht]
  · intro hc
    simp [cleanForm, hc]
  · intro hp
    simp [cleanForm, hp]
  · intro ht
    simp [cleanForm, ht]
  · intro hv
    by_cases ha : u.is_administrator <;> simp [createView, hv, ha]
  · intro hget hv
    by_cases ha : u.is_administrator <;> simp [updateView, hget, hv, ha]

/-- Witness for C9 at a concrete form whose color fails validation. -/
theorem invalid_field_excluded_no_persist_witness :
    (cleanColor (FormData.mk none "foo" "" false false true
        "#QWERTZ").color = false ∨
      cleanParent [Category.mk 1 "a" "" "" false false true false none 1 0]
        none (FormData.mk none "foo" "" false false true
          "#QWERTZ").parent = none ∨
      cleanTitle (FormData.mk none "foo" "" false false true
        "#QWERTZ").title = none) ∧
    (formIsValid [Category.mk 1 "a" "" "" false false true false none 1 0]
        none (FormData.mk none "foo" "" false false true "#QWERTZ") =
        false ∧
     (cleanColor (FormData.mk none "foo" "" false false true
        "#QWERTZ").color = false →
       (cleanForm [Category.mk 1 "a" "" "" false false true false none 1 0]
          none (FormData.mk none "foo" "" false false true
            "#QWERTZ")).color = none) ∧
     (cleanParent [Category.mk 1 "a" "" "" false false true false none 1 0]
        none (FormData.mk none "foo" "" false false true
          "#QWERTZ").parent = none →
       (cleanForm [Category.mk 1 "a" "" "" false false true false none 1 0]
          none (FormData.mk none "foo" "" false false true
            "#QWERTZ")).parent = none) ∧
     (cleanTitle (FormData.mk none "foo" "" false false true
        "#QWERTZ").title = none →
       (cleanForm [Category.mk 1 "a" "" "" false false true false none 1 0]
          none (FormData.mk none "foo" "" false false true
            "#QWERTZ")).title = none) ∧
     (formIsValid [Category.mk 1 "a" "" "" false false true false none 1 0]
        none (FormData.mk none "foo" "" false false true "#QWERTZ") =
        false →
       (createView (User.mk true)
          [Category.mk 1 "a" "" "" false false true false none 1 0]
          (FormData.mk none "foo" "" false false true "#QWERTZ") 2 5).2 =
        [Category.mk 1 "a" "" "" false false true false none 1 0]) ∧
     (getById [Category.mk 1 "a" "" "" false false true false none 1 0] 1 =
        some (Category.mk 1 "a" "" "" false false true false none 1 0) →
       formIsValid [Category.mk 1 "a" "" "" false false true false none 1 0]
          (some (Category.mk 1 "a" "" "" false false true false none 1 0))
          (FormData.mk none "foo" "" false false true "#QWERTZ") = false →
       (updateView (User.mk true)
          [Category.mk 1 "a" "" "" false false true false none 1 0] 1
          (FormData.mk none "foo" "" false false true "#QWERTZ") 5).2 =
        [Category.mk 1 "a" "" "" false false true false none 1 0])) :=
  ⟨Or.inl (by decide),
    invalid_field_excluded_no_persist _ none _ (User.mk true) _ 1 2 5
      (Or.inl (by decide))⟩

/-- C7: for an administrator the index action lists exactly the stored
categories that are not private and have no parent, and leaves the
store untouched. -/
theorem index_lists_exactly_public_roots (u : User) (ordered : Bool)
    (st : Store) (h : u.is_administrator = true) :
    (indexView u ordered st).1 = Except.ok (listCategories ordered st) ∧
    (indexView u ordered st).2 = st ∧
    ∀ c : Category, c ∈ listCategories ordered st ↔
      (c ∈ st ∧ c.is_private = false ∧ c.parent = none) := by
  refine ⟨by simp [indexView, h], by simp [indexView, h], ?_⟩
  intro c
  have hperm : c ∈ listCategories ordered st ↔ c ∈ rootPublic st := by
    unfold listCategories
    by_cases ho : ordered
    · rw [if_pos ho]
      exact (List.perm_insertionSort bySort _).mem_iff
    · rw [if_neg ho]
      exact (List.perm_insertionSort byTitle _).mem_iff
  rw [hperm, rootPublic, List.mem_filter]
  simp

/-- Witness for C7 on a store holding a root category, a private
category and a subcategory. -/
theorem index_lists_exactly_public_roots_witness :
    (User.mk true).is_administrator = true ∧
    ((indexView (User.mk true) true
        [Category.mk 1 "a" "" "" false false true false none 1 0,
         Category.mk 2 "b" "" "" false false true true none 2 0,
         Category.mk 3 "c" "" "" false false true false (some 1) 3 0]).1 =
      Except.ok (listCategories true
        [Category.mk 1 "a" "" "" false false true false none 1 0,
         Category.mk 2 "b" "" "" false false true true none 2 0,
         Category.mk 3 "c" "" "" false false true false (some 1) 3 0]) ∧
     (indexView (User.mk true) true
        [Category.mk 1 "a" "" "" false false true false none 1 0,
         Category.mk 2 "b" "" "" false false true true none 2 0,
         Category.mk 3 "c" "" "" false false true false (some 1) 3 0]).2 =
      [Category.mk 1 "a" "" "" false false true false none 1 0,
       Category.mk 2 "b" "" "" false false true true none 2 0,
       Category.mk 3 "c" "" "" false false true false (some 1) 3 0] ∧
     ∀ c : Category, c ∈ listCategories true
        [Category.mk 1 "a" "" "" false false true false none 1 0,
         Category.mk 2 "b" "" "" false false true true none 2 0,
         Category.mk 3 "c" "" "" false false true false (some 1) 3 0] ↔
       (c ∈ ([Category.mk 1 "a" "" "" false false true false none 1 0,
         Category.mk 2 "b" "" "" false false true true none 2 0,
         Category.mk 3 "c" "" "" false false true false (some 1) 3 0] :
           Store) ∧
        c.is_private = false ∧ c.parent = none)) :=
  ⟨rfl, index_lists_exactly_public_roots (User.mk true) true _ rfl⟩

/-- C8: with the ordering flag enabled the listing is `sort`-ascending,
with it disabled it is title-ascending, and the two listings are
permutations of each other and of the stored root-level public rows —
so toggling the flag changes only the presentation order and leaves
every stored `sort` value unchanged. -/
theorem ordering_flag_only_presentation (st : Store) :
    (listCategories true st).Perm (rootPublic st) ∧
    (listCategories false st).Perm (rootPublic st) ∧
    (listCategories true st).Perm (listCategories false st) ∧
    List.Sorted bySort (listCategories true st) ∧
    List.Sorted byTitle (listCategories false st) := by
  have h1 : listCategories true st =
      List.insertionSort bySort (rootPublic st) := rfl
  have h2 : listCategories false st =
      List.insertionSort byTitle (rootPublic st) := rfl
  rw [h1, h2]
  exact ⟨List.perm_insertionSort _ _, List.perm_insertionSort _ _,
    (List.perm_insertionSort _ _).trans
      (List.perm_insertionSort _ _).symm,
    List.sorted_insertionSort _ _, List.sorted_insertionSort _ _⟩

theorem minBySort_mem {l : List Category} {b : Category}
    (h : minBySort l = some b) : b ∈ l := by
  induction l generalizing b with
  | nil => cases h
  | cons c cs ih =>
    rw [minBySort] at h
    cases hm : minBySort cs with
    | none =>
      rw [hm] at h
      injection h with h
      subst h
      exact List.mem_cons_self _ _
    | some m =>
      rw [hm] at h
      have h2 : (if c.sort < m.sort then some c else some m) = some b := h
      by_cases hlt : c.sort < m.sort
      · rw [if_pos hlt] at h2
        injection h2 with h2
        subst h2
        exact List.mem_cons_self _ _
      · rw [if_neg hlt] at h2
        injection h2 with h2
        subst h2
        exact List.mem_cons_of_mem _ (ih hm)

theorem maxBySort_mem {l : List Category} {b : Category}
    (h : maxBySort l = some b) : b ∈ l := by
  induction l generalizing b with
  | nil => cases h
  | cons c cs ih =>
    rw [maxBySort] at h
    cases hm : maxBySort cs with
    | none =>
      rw [hm] at h
      injection h with h
      subst h
      exact List.mem_cons_self _ _
    | some m =>
      rw [hm] at h
      have h2 : (if m.sort < c.sort then some c else some m) = some b := h
      by_cases hlt : m.sort < c.sort
      · rw [if_pos hlt] at h2
        injection h2 with h2
        subst h2
        exact List.mem_cons_self _ _
      · rw [if_neg hlt] at h2
        injection h2 with h2
        subst h2
        exact List.mem_cons_of_mem _ (ih hm)

/-- When `b` is the unique strict minimum of the list, `minBySort`
returns it. -/
theorem minBySort_pin {l : List Category} {b : Category}
    (hb : b ∈ l) (h : ∀ c ∈ l, c = b ∨ b.sort < c.sort) :
    minBySort l = some b := by
  induction l with
  | nil => cases hb
  | cons c cs ih =>
    rw [minBySort]
    rcases List.mem_cons.mp hb with hcb | hmem
    · subst hcb
      cases hm : minBySort cs with
      | none => rfl
      | some m =>
        rcases h m (List.mem_cons_of_mem _ (minBySort_mem hm)) with he | hlt
        · subst he
          show (if m.sort < m.sort then some m else some m) = some m
          rw [if_neg (lt_irrefl _)]
        · show (if b.sort < m.sort then some b else some m) = some b
          rw [if_pos hlt]
    · rw [ih hmem (fun x hx => h x (List.mem_cons_of_mem _ hx))]
      rcases h c (List.mem_cons_self _ _) with he | hlt
      · subst he
        show (if c.sort < c.sort then some c else some c) = some c
        rw [if_neg (lt_irrefl _)]
      · show (if c.sort < b.sort then some c else some b) = some b
        rw [if_neg (Nat.lt_asymm hlt)]

/-- When `b` is the unique strict maximum of the list, `maxBySort`
returns it. -/
theorem maxBySort_pin {l : List Category} {b : Category}
    (hb : b ∈ l) (h : ∀ c ∈ l, c = b ∨ c.sort < b.sort) :
    maxBySort l = some b := by
  induction l with
  | nil => cases hb
  | cons c cs ih =>
    rw [maxBySort]
    rcases List.mem_cons.mp hb with hcb | hmem
    · subst hcb
      cases hm : maxBySort cs with
      | none => rfl
      | some m =>
        rcases h m (List.mem_cons_of_mem _ (maxBySort_mem hm)) with he | hlt
        · subst he
          show (if m.sort < m.sort then some m else some m) = some m
          rw [if_neg (lt_irrefl _)]
        · show (if m.sort < b.sort then some b else some m) = some b
          rw [if_pos hlt]
    · rw [ih hmem (fun x hx => h x (List.mem_cons_of_mem _ hx))]
      rcases h c (List.mem_cons_self _ _) with he | hlt
      · subst he
        show (if c.sort < c.sort then some c else some c) = some c
        rw [if_neg (lt_irrefl _)]
      · show (if b.sort < c.sort then some c else some b) = some b
        rw [if_neg (Nat.lt_asymm hlt)]

theorem swapSorts_getById (st : Store) (a b : Category) (i : Nat) :
    getById (swapSorts st a b) i =
      (getById st i).map (fun x =>
        if x.id = a.id then { x with sort := b.sort }
        else if x.id = b.id then { x with sort := a.sort }
        else x) := by
  apply getById_map
  intro x
  by_cases h1 : x.id = a.id
  · rw [if_pos h1]
  · rw [if_neg h1]
    by_cases h2 : x.id = b.id
    · rw [if_pos h2]
    · rw [if_neg h2]

theorem swapSorts_ids (st : Store) (a b : Category) :
    (swapSorts st a b).map (fun c => c.id) = st.map (fun c => c.id) := by
  rw [swapSorts, List.map_map]
  apply List.map_congr_left
  intro x _
  show (if x.id = a.id then { x with sort := b.sort }
    else if x.id = b.id then { x with sort := a.sort } else x).id = x.id
  by_cases h1 : x.id = a.id
  · rw [if_pos h1]
  · rw [if_neg h1]
    by_cases h2 : x.id = b.id
    · rw [if_pos h2]
    · rw [if_neg h2]

theorem moveDn_eq {st : Store} {cid : Nat} {c b : Category}
    (hg : getById st cid = some c) (hr : c.parent = none)
    (hb : nextSibling st c = some b) :
    moveDn st cid = swapSorts st c b := by
  rw [moveDn, hg]
  show (if c.parent = none then
      match nextSibling st c with
      | none => st
      | some y => swapSorts st c y
    else st) = swapSorts st c b
  rw [if_pos hr, hb]

theorem moveUp_eq {st : Store} {cid : Nat} {c b : Category}
    (hg : getById st cid = some c) (hr : c.parent = none)
    (hb : prevSibling st c = some b) :
    moveUp st cid = swapSorts st c b := by
  rw [moveUp, hg]
  show (if c.parent = none then
      match prevSibling st c with
      | none => st
      | some y => swapSorts st c y
    else st) = swapSorts st c b
  rw [if_pos hr, hb]

/-- C4: for adjacent root-level siblings A and B with A's `sort` below
B's, `move_dn` on A swaps the two `sort` values — leaving A's strictly
above B's — and a subsequent `move_up` on A swaps them back, restoring
A's `sort` strictly below B's (the original relative order). -/
theorem move_dn_then_up_swaps (st : Store) (A B : Category)
    (hn : (st.map (fun c => c.id)).Nodup)
    (hA : A ∈ st) (hB : B ∈ st)
    (hAr : A.parent = none) (hBr : B.parent = none)
    (hAB : A.id ≠ B.id) (hs : A.sort < B.sort)
    (hadj : ∀ c ∈ st, c.parent = none → c.id ≠ A.id → c.id ≠ B.id →
      c.sort < A.sort ∨ B.sort < c.sort) :
    sortOf (moveDn st A.id) A.id = some B.sort ∧
    sortOf (moveDn st A.id) B.id = some A.sort ∧
    sortOf (moveUp (moveDn st A.id) A.id) A.id = some A.sort ∧
    sortOf (moveUp (moveDn st A.id) A.id) B.id = some B.sort := by
  have hgetA : getById st A.id = some A := getById_of_mem hA hn
  have hgetB : getById st B.id = some B := getById_of_mem hB hn
  have hnext : nextSibling st A = some B := by
    apply minBySort_pin
    · exact List.mem_filter.mpr ⟨hB, by simp [hBr, hs]⟩
    · intro c hc
      obtain ⟨hcst, hcp⟩ := List.mem_filter.mp hc
      simp only [Bool.and_eq_true, beq_iff_eq, decide_eq_true_eq] at hcp
      obtain ⟨hcr, hlt⟩ := hcp
      by_cases hcB : c.id = B.id
      · exact Or.inl (eq_of_mem_id hcst hB hn hcB)
      · by_cases hcA : c.id = A.id
        · exact absurd ((eq_of_mem_id hcst hA hn hcA) ▸ hlt) (lt_irrefl _)
        · rcases hadj c hcst hcr hcA hcB with h1 | h1
          · exact absurd hlt (Nat.lt_asymm h1)
          · exact Or.inr h1
  have hdn : moveDn st A.id = swapSorts st A B := moveDn_eq hgetA hAr hnext
  have hgA1 : getById (swapSorts st A B) A.id =
      some { A with sort := B.sort } := by
    rw [swapSorts_getById, hgetA]
    simp
  have hgB1 : getById (swapSorts st A B) B.id =
      some { B with sort := A.sort } := by
    rw [swapSorts_getById, hgetB]
    simp [Ne.symm hAB]
  have hn1 : ((swapSorts st A B).map (fun c => c.id)).Nodup := by
    rw [swapSorts_ids]
    exact hn
  have hprev : prevSibling (swapSorts st A B) { A with sort := B.sort } =
      some { B with sort := A.sort } := by
    apply maxBySort_pin
    · refine List.mem_filter.mpr ⟨(getById_mem hgB1).1, ?_⟩
      show (({ B with sort := A.sort } : Category).parent == none &&
        decide (({ B with sort := A.sort } : Category).sort <
          ({ A with sort := B.sort } : Category).sort)) = true
      simp [hBr, hs]
    · intro c hc
      obtain ⟨hcst1, hcp⟩ := List.mem_filter.mp hc
      simp only [Bool.and_eq_true, beq_iff_eq, decide_eq_true_eq] at hcp
      obtain ⟨hcr, hlt⟩ := hcp
      have hlt2 : c.sort < B.sort := hlt
      have hgc : getById (swapSorts st A B) c.id = some c :=
        getById_of_mem hcst1 hn1
      by_cases hcA : c.id = A.id
      · exfalso
        rw [hcA, hgA1] at hgc
        injection hgc with hgc
        rw [← hgc] at hlt2
        exact lt_irrefl _ hlt2
      · by_cases hcB : c.id = B.id
        · left
          rw [hcB, hgB1] at hgc
          injection hgc with hgc
          exact hgc.symm
        · right
          have hmap := swapSorts_getById st A B c.id
          rw [hgc] at hmap
          cases hy : getById st c.id with
          | none =>
            rw [hy] at hmap
            cases hmap
          | some y =>
            rw [hy] at hmap
            injection hmap with hmap
            have hyid : y.id = c.id := (getById_mem hy).2
            have hyst : y ∈ st := (getById_mem hy).1
            have hcy : c = y := by
              rw [hmap]
              show (if y.id = A.id then { y with sort := B.sort }
                else if y.id = B.id then { y with sort := A.sort }
                else y) = y
              rw [if_neg (fun h => hcA (hyid ▸ h)),
                if_neg (fun h => hcB (hyid ▸ h))]
            show c.sort < A.sort
            rw [hcy]
            rcases hadj y hyst (hcy ▸ hcr) (fun h => hcA (hyid ▸ h))
                (fun h => hcB (hyid ▸ h)) with h1 | h1
            · exact h1
            · exfalso
              rw [hcy] at hlt2
              exact absurd hlt2 (Nat.lt_asymm h1)
  have hup : moveUp (swapSorts st A B) A.id =
      swapSorts (swapSorts st A B) { A with sort := B.sort }
        { B with sort := A.sort } :=
    moveUp_eq hgA1 hAr hprev
  refine ⟨?_, ?_, ?_, ?_⟩
  · rw [hdn, sortOf, hgA1]
    rfl
  · rw [hdn, sortOf, hgB1]
    rfl
  · rw [hdn, hup, sortOf, swapSorts_getById, hgA1]
    simp
  · rw [hdn, hup, sortOf, swapSorts_getById, hgB1]
    simp [Ne.symm hAB]

/-- Witness for C4: two adjacent root categories with sorts 1 and 2. -/
theorem move_dn_then_up_swaps_witness :
    (([Category.mk 1 "a" "" "" false false true false none 1 0,
       Category.mk 2 "b" "" "" false false true false none 2 0] :
        Store).map (fun c => c.id)).Nodup ∧
    ((Category.mk 1 "a" "" "" false false true false none 1 0) ∈
      ([Category.mk 1 "a" "" "" false false true false none 1 0,
        Category.mk 2 "b" "" "" false false true false none 2 0] :
         Store)) ∧
    ((Category.mk 2 "b" "" "" false false true false none 2 0) ∈
      ([Category.mk 1 "a" "" "" false false true false none 1 0,
        Category.mk 2 "b" "" "" false false true false none 2 0] :
         Store)) ∧
    (sortOf (moveDn
        [Category.mk 1 "a" "" "" false false true false none 1 0,
         Category.mk 2 "b" "" "" false false true false none 2 0]
        (Category.mk 1 "a" "" "" false false true false none 1 0).id)
        (Category.mk 1 "a" "" "" false false true false none 1 0).id =
      some (Category.mk 2 "b" "" "" false false true false none 2 0).sort ∧
     sortOf (moveDn
        [Category.mk 1 "a" "" "" false false true false none 1 0,
         Category.mk 2 "b" "" "" false false true false none 2 0]
        (Category.mk 1 "a" "" "" false false true false none 1 0).id)
        (Category.mk 2 "b" "" "" false false true false none 2 0).id =
      some (Category.mk 1 "a" "" "" false false true false none 1 0).sort ∧
     sortOf (moveUp (moveDn
        [Category.mk 1 "a" "" "" false false true false none 1 0,
         Category.mk 2 "b" "" "" false false true false none 2 0]
        (Category.mk 1 "a" "" "" false false true false none 1 0).id)
        (Category.mk 1 "a" "" "" false false true false none 1 0).id)
        (Category.mk 1 "a" "" "" false false true false none 1 0).id =
      some (Category.mk 1 "a" "" "" false false true false none 1 0).sort ∧
     sortOf (moveUp (moveDn
        [Category.mk 1 "a" "" "" false false true false none 1 0,
         Category.mk 2 "b" "" "" false false true false none 2 0]
        (Category.mk 1 "a" "" "" false false true false none 1 0).id)
        (Category.mk 1 "a" "" "" false false true false none 1 0).id)
        (Category.mk 2 "b" "" "" false false true false none 2 0).id =
      some (Category.mk 2 "b" "" "" false false true false none 2 0).sort) :=
  ⟨by decide, by decide, by decide,
    move_dn_then_up_swaps
      [Category.mk 1 "a" "" "" false false true false none 1 0,
       Category.mk 2 "b" "" "" false false true false none 2 0]
      (Category.mk 1 "a" "" "" false false true false none 1 0)
      (Category.mk 2 "b" "" "" false false true false none 2 0)
      (by decide) (by decide) (by decide) rfl rfl (by decide) (by decide)
      (by decide)⟩

end Spirit
